import Mathlib

/-!
Shallow embedding of the AzurePriceMCP server (src/index.ts): the OData
filter builder, the paginated fetcher over the Azure retail-prices API, the
four report formatters, and the tool-call dispatcher, together with proofs
of the specified properties.

Modelling conventions:
* JS numbers that hold prices are embedded as rationals.
* JS truthiness on optional strings / numbers is made explicit
  (`truthyStr`, `jsOrNat`, `jsOrString`).
* The network is abstracted by an environment (`Env`) listing the HTTP
  responses the upstream serves: the response to the initial query and the
  responses served for successive next-page links.  `NextPageLink` is
  modelled by the Boolean "a next-page link is present"; the link text
  itself carries no behavior.
* JS `Array.prototype.sort` with the comparators used here (a total
  preorder) is a stable sort, hence extensionally equal to insertion sort
  with the corresponding relation; `localeCompare` and the default string
  sort are modelled as code-point lexicographic order (`strLe`).
* JS `Map` and `Set` preserve insertion order; they are embedded as
  association lists (`groupInsert`, `svcInsert`) and duplicate-free lists
  (`setAdd`).
-/

/-- JS truthiness of an optional string: `undefined` and `""` are falsy. -/
def truthyStr : Option String → Bool
  | none => false
  | some s => !(s == "")

/-- JS `x || d` for an optional numeric argument: `undefined` and `0` are
falsy, every other count is taken as is. -/
def jsOrNat : Option Nat → Nat → Nat
  | none, d => d
  | some n, d => if n = 0 then d else n

/-- JS `s || d` on strings: the empty string is falsy. -/
def jsOrString (s d : String) : String := if s = "" then d else s

/-- JS string coercion of a possibly-missing string argument: an absent
value prints as "undefined" (and is also not a valid family name). -/
def jsString (o : Option String) : String := o.getD "undefined"

/-- One entry of the optional `savingsPlan` array of a price item. -/
structure SavingsPlanEntry where
  unitPrice : ℚ
  retailPrice : ℚ
  term : String
deriving DecidableEq, Repr

/-- The `PriceItem` record of src/index.ts. -/
structure PriceItem where
  currencyCode : String
  tierMinimumUnits : ℚ
  retailPrice : ℚ
  unitPrice : ℚ
  armRegionName : String
  location : String
  effectiveStartDate : String
  meterId : String
  meterName : String
  productId : String
  skuId : String
  productName : String
  skuName : String
  serviceName : String
  serviceId : String
  serviceFamily : String
  unitOfMeasure : String
  type : String
  isPrimaryMeterRegion : Bool
  armSkuName : String
  reservationTerm : Option String
  savingsPlan : Option (List SavingsPlanEntry)
deriving DecidableEq, Repr

/-- The body of one API response page (`ApiResponse` in the source):
the item list and whether a `NextPageLink` is present. -/
structure ApiResponse (α : Type) where
  Items : List α
  NextPageLink : Bool
deriving DecidableEq, Repr

/-- An HTTP response as seen through the fetch API. -/
structure HttpResponse (α : Type) where
  status : Nat
  statusText : String
  body : ApiResponse α
deriving DecidableEq, Repr

/-- `Response.ok` of the fetch API: status in the range 200..299. -/
def HttpResponse.ok (r : HttpResponse α) : Bool :=
  decide (200 ≤ r.status) && decide (r.status < 300)

/-- The argument bag of a tool call, which doubles as the parameter record
handed to `buildFilter` / `queryAzurePrices` (the source passes plain
`Record<string, unknown>` maps with exactly these keys). -/
structure Args where
  serviceName : Option String
  serviceFamily : Option String
  armRegionName : Option String
  armSkuName : Option String
  priceType : Option String
  currencyCode : Option String
  productName : Option String
  skuName : Option String
  meterName : Option String
  customFilter : Option String
  primaryOnly : Option Bool
  maxResults : Option Nat
  regions : Option (List String)
deriving DecidableEq, Repr

/-- An argument bag with every argument absent. -/
def emptyArgs : Args :=
  ⟨none, none, none, none, none, none, none, none, none, none, none, none, none⟩

/-- The `simpleFilters` table of `buildFilter`: API field name paired with
the parameter accessor, in the declaration order of the source object
literal. -/
def simpleFilters : List (String × (Args → Option String)) :=
  [("serviceName", Args.serviceName),
   ("serviceFamily", Args.serviceFamily),
   ("armRegionName", Args.armRegionName),
   ("armSkuName", Args.armSkuName),
   ("priceType", Args.priceType),
   ("productName", Args.productName),
   ("skuName", Args.skuName),
   ("meterName", Args.meterName)]

/-- `buildFilter` of src/index.ts: one `field eq 'value'` clause per truthy
simple field in table order, then the custom filter verbatim, all joined
with " and ". -/
def buildFilter (params : Args) : String :=
  let filters := simpleFilters.foldl
    (fun acc e =>
      if truthyStr (e.2 params) then
        acc ++ [e.1 ++ " eq '" ++ (e.2 params).getD "" ++ "'"]
      else acc)
    []
  let filters :=
    if truthyStr params.customFilter then filters ++ [params.customFilter.getD ""]
    else filters
  String.intercalate " and " filters

/-- Upstream environment of one tool call: the HTTP response to the initial
query and the successive responses served when next-page links are
followed.  URL construction is a network detail that does not influence
the observable behavior being verified. -/
structure Env where
  first : HttpResponse PriceItem
  rest : List (HttpResponse PriceItem)

/-- `queryAzurePrices`: a non-2xx status on the initial request throws
`API request failed: <status> <statusText>`; a 2xx status yields the
parsed body. -/
def queryAzurePrices (r : HttpResponse α) : Except String (ApiResponse α) :=
  if r.ok then Except.ok r.body
  else Except.error ("API request failed: " ++ toString r.status ++ " " ++ r.statusText)

/-- The `while (response.NextPageLink && items.length < maxResults)` loop of
`fetchWithPagination`: `rest` are the responses the upstream serves for
successive next-page links; a non-2xx page response breaks the loop
silently. -/
def paginate (maxResults : Nat) : List (HttpResponse α) → Bool → List α → List α
  | _, false, items => items
  | [], true, items => items
  | r :: rs, true, items =>
    if items.length < maxResults then
      if r.ok then paginate maxResults rs r.body.NextPageLink (items ++ r.body.Items)
      else items
    else items

/-- `fetchWithPagination`: initial fetch (hard failure on non-2xx), the
pagination loop, then `items.slice(0, maxResults)`.  The TS parameter
default of 100 is always overridden by the callers in `handleToolCall`. -/
def fetchWithPagination (first : HttpResponse α) (rest : List (HttpResponse α))
    (maxResults : Nat) : Except String (List α) :=
  match queryAzurePrices first with
  | Except.error e => Except.error e
  | Except.ok body =>
    Except.ok ((paginate maxResults rest body.NextPageLink body.Items).take maxResults)

/-- The items concatenated over the next-page responses, in arrival order. -/
def pagesJoin (rest : List (HttpResponse α)) : List α :=
  (rest.map (fun r => r.body.Items)).flatten

/-- The savings-plan suffix of one raw-list block. -/
def formatSavingsPlans (currencyCode : String) : Option (List SavingsPlanEntry) → String
  | none => ""
  | some plans =>
    if plans.length > 0 then
      "\n  - Savings Plans:" ++
        plans.foldl (fun acc plan =>
          acc ++ "\n    - " ++ plan.term ++ ": " ++ toString plan.retailPrice ++ " " ++ currencyCode) ""
    else ""

/-- One block of the raw-list report of `query_azure_prices`. -/
def formatPriceItem (item : PriceItem) : String :=
  "**" ++ item.productName ++ "** - " ++ item.skuName ++
  "\n  - Retail Price: " ++ toString item.retailPrice ++ " " ++ item.currencyCode ++ "/" ++ item.unitOfMeasure ++
  "\n  - Region: " ++ item.location ++ " (" ++ item.armRegionName ++ ")" ++
  "\n  - Service: " ++ item.serviceName ++ " (" ++ item.serviceFamily ++ ")" ++
  "\n  - Type: " ++ item.type ++
  "\n  - Meter: " ++ item.meterName ++
  "\n  - ARM SKU: " ++ jsOrString item.armSkuName "N/A" ++
  (if truthyStr item.reservationTerm then "\n  - Reservation Term: " ++ item.reservationTerm.getD ""
   else "") ++
  formatSavingsPlans item.currencyCode item.savingsPlan

/-- `formatPriceItems`: the raw-list formatter, with its fixed no-results
message on an empty list. -/
def formatPriceItems (items : List PriceItem) : String :=
  if items.length = 0 then "No prices found matching the criteria."
  else
    "Found " ++ toString items.length ++ " price(s):\n\n" ++
      String.intercalate "\n\n" (items.map formatPriceItem)

/-- The verbatim `SERVICE_FAMILIES` constant of src/index.ts. -/
def SERVICE_FAMILIES : List String :=
  ["Analytics",
   "Azure Arc",
   "Azure Communication Services",
   "Azure Security",
   "Azure Stack",
   "Compute",
   "Containers",
   "Data",
   "Databases",
   "Developer Tools",
   "Dynamics",
   "Gaming",
   "Integration",
   "Internet of Things",
   "Management and Governance",
   "Microsoft Syntex",
   "Mixed Reality",
   "Networking",
   "Other",
   "Power Platform",
   "Quantum Computing",
   "Security",
   "Storage",
   "Telecommunications",
   "Web",
   "Windows Virtual Desktop"]

/-- The membership test `SERVICE_FAMILIES.includes(serviceFamily)` used by
the `get_services_by_family` branch. -/
def familyIsValid (f : String) : Bool := SERVICE_FAMILIES.contains f

/-- Append `item` to the group keyed `key`, creating the group at the end
if absent: the insertion-order grouping behavior of a JS `Map`. -/
def groupInsert (key : String) (item : α) :
    List (String × List α) → List (String × List α)
  | [] => [(key, [item])]
  | (k, v) :: gs =>
    if k = key then (k, v ++ [item]) :: gs else (k, v) :: groupInsert key item gs

/-- Grouping a list by a string key, preserving first-seen group order. -/
def groupByKey (key : α → String) (items : List α) : List (String × List α) :=
  items.foldl (fun gs i => groupInsert (key i) i gs) []

/-- The value stored under key `k` of an insertion-ordered map (empty when
the key is absent). -/
def groupFind (gs : List (String × List α)) (k : String) : List α :=
  match gs.find? (fun g => g.1 == k) with
  | some g => g.2
  | none => []

/-- JS `Set.prototype.add`: appends the element when not already present,
preserving insertion order. -/
def setAdd (s : List String) (x : String) : List String :=
  if s.contains x then s else s ++ [x]

/-- The distinct elements of a list in first-seen order (what repeatedly
adding to a JS `Set` accumulates). -/
def firstSeen (l : List String) : List String := l.foldl setAdd []

/-- Code-point lexicographic order on character lists: the comparison JS
performs between strings (UTF-16 code units; identical on these inputs). -/
def charListLe : List Char → List Char → Bool
  | [], _ => true
  | _ :: _, [] => false
  | a :: as, b :: bs => if a < b then true else if b < a then false else charListLe as bs

/-- Code-point lexicographic order on strings, modelling both the default
JS string sort and `localeCompare` on the data at hand. -/
def strLe (a b : String) : Bool := charListLe a.data b.data

/-- The comparator `(a, b) => a.retailPrice - b.retailPrice` of the VM
comparison, as the ordering relation it induces. -/
def priceLE (a b : PriceItem) : Prop := a.retailPrice ≤ b.retailPrice

instance : DecidableRel priceLE := fun a b => inferInstanceAs (Decidable (a.retailPrice ≤ b.retailPrice))

/-- JS `prices.sort((a, b) => a.retailPrice - b.retailPrice)`: a stable
ascending sort by retail price (stable sorts agree extensionally, so
insertion sort embeds it faithfully). -/
def sortByPrice (ps : List PriceItem) : List PriceItem :=
  List.insertionSort priceLE ps

/-- The string ordering relation of `strLe`. -/
def strLE (a b : String) : Prop := strLe a b = true

instance : DecidableRel strLE := fun a b => inferInstanceAs (Decidable (strLe a b = true))

/-- JS `[...products].sort()`: stable lexicographic string sort. -/
def sortStrings (l : List String) : List String :=
  List.insertionSort strLE l

/-- The ordering `(a, b) => a[0].localeCompare(b[0])` on the service map
entries. -/
def entryLE (a b : String × List String) : Prop := strLe a.1 b.1 = true

instance : DecidableRel entryLE := fun a b => inferInstanceAs (Decidable (strLe a.1 b.1 = true))

/-- One per-SKU section of the VM comparison report: the 10 cheapest items
of the group, one line each. -/
def compareSection (sku : String) (prices : List PriceItem) : String :=
  "### " ++ sku ++ "\n" ++
    ((sortByPrice prices).take 10).foldl (fun acc p =>
      acc ++ "- " ++ p.armRegionName ++ ": " ++ toString p.retailPrice ++ " " ++
        p.currencyCode ++ "/" ++ p.unitOfMeasure ++ " (" ++ p.productName ++ ")\n")
      "" ++ "\n"

/-- The `compare_vm_prices` report over the region-filtered items,
including the final `result || "No VM prices found..."` fallback. -/
def compareReport (filtered : List PriceItem) : String :=
  jsOrString
    ((groupByKey (fun i => i.armSkuName) filtered).foldl
      (fun acc g => acc ++ compareSection g.1 g.2)
      "## VM Price Comparison\n\n")
    "No VM prices found for the specified criteria."

/-- One per-SKU section of the reservation report: one line per item in
fetch order. -/
def reservationSection (sku : String) (prices : List PriceItem) : String :=
  "### " ++ sku ++ "\n" ++
    prices.foldl (fun acc p =>
      acc ++ "- " ++ jsOrString (p.reservationTerm.getD "") "N/A" ++ ": " ++
        toString p.retailPrice ++ " " ++ p.currencyCode ++ " - " ++ p.location ++
        " (" ++ p.productName ++ ")\n")
      "" ++ "\n"

/-- The `get_reservation_prices` report over a non-empty item list. -/
def reservationReport (items : List PriceItem) : String :=
  (groupByKey (fun i => jsOrString i.armSkuName i.skuName) items).foldl
    (fun acc g => acc ++ reservationSection g.1 g.2)
    "## Reservation Prices\n\n"

/-- Insert one record into the `services` map of `get_services_by_family`:
service name mapped to the set of its distinct product names, both in
first-seen order. -/
def svcInsert (svc prod : String) :
    List (String × List String) → List (String × List String)
  | [] => [(svc, [prod])]
  | (k, v) :: t =>
    if k = svc then (k, setAdd v prod) :: t else (k, v) :: svcInsert svc prod t

/-- The full `services` map accumulated over the scanned items. -/
def servicesMap (items : List PriceItem) : List (String × List String) :=
  items.foldl (fun m i => svcInsert i.serviceName i.productName m) []

/-- One per-service section of the discovery report: distinct products,
sorted, capped at 20, with the `... and N more` suffix line. -/
def serviceSection (svc : String) (products : List String) : String :=
  "### " ++ svc ++ "\nProducts (" ++ toString products.length ++ "):\n" ++
    ((sortStrings products).take 20).foldl (fun acc p => acc ++ "- " ++ p ++ "\n") "" ++
    (if products.length > 20 then
      "- ... and " ++ toString (products.length - 20) ++ " more\n"
     else "") ++ "\n"

/-- The `get_services_by_family` report over a non-empty item list. -/
def servicesReport (serviceFamily : String) (items : List PriceItem) : String :=
  let services := servicesMap items
  let sortedServices := List.insertionSort entryLE services
  "## Services in \"" ++ serviceFamily ++ "\" Family\n\n" ++
    "Found " ++ toString services.length ++ " service(s) from " ++
    toString items.length ++ " price records:\n\n" ++
    sortedServices.foldl (fun acc g => acc ++ serviceSection g.1 g.2) ""

/-- The fixed `get_service_families` report. -/
def familiesReport : String :=
  "## Azure Service Families\n\nThe following service families can be used to filter Azure prices:\n\n" ++
    String.intercalate "\n" (SERVICE_FAMILIES.map (fun f => "- " ++ f))

/-- `Math.min((args.maxResults as number) || 100, 1000)` of
`query_azure_prices`. -/
def queryMaxResults (args : Args) : Nat := min (jsOrNat args.maxResults 100) 1000

/-- `Math.min((args.maxResults as number) || 500, 2000)` of
`get_services_by_family`. -/
def servicesMaxResults (args : Args) : Nat := min (jsOrNat args.maxResults 500) 2000

/-- `handleToolCall`: the tool-name switch.  The first component is the
returned text (`Except.ok`) or the thrown error (`Except.error`); the
second records whether an upstream fetch was performed during the call. -/
def handleToolCall (env : Env) (name : String) (args : Args) :
    Except String String × Bool :=
  if name = "query_azure_prices" then
    match fetchWithPagination env.first env.rest (queryMaxResults args) with
    | Except.error e => (Except.error e, true)
    | Except.ok items => (Except.ok (formatPriceItems items), true)
  else if name = "compare_vm_prices" then
    match fetchWithPagination env.first env.rest 500 with
    | Except.error e => (Except.error e, true)
    | Except.ok items =>
      let filtered :=
        match args.regions with
        | some rs => if rs.length > 0 then items.filter (fun i => rs.contains i.armRegionName) else items
        | none => items
      (Except.ok (compareReport filtered), true)
  else if name = "get_service_families" then
    (Except.ok familiesReport, false)
  else if name = "get_reservation_prices" then
    match fetchWithPagination env.first env.rest 200 with
    | Except.error e => (Except.error e, true)
    | Except.ok items =>
      if items.length = 0 then
        (Except.ok "No reservation prices found for the specified criteria.", true)
      else (Except.ok (reservationReport items), true)
  else if name = "get_services_by_family" then
    let serviceFamily := jsString args.serviceFamily
    if !(familyIsValid serviceFamily) then
      (Except.ok ("Unknown service family: \"" ++ serviceFamily ++
        "\". Use get_service_families to see valid options."), false)
    else
      match fetchWithPagination env.first env.rest (servicesMaxResults args) with
      | Except.error e => (Except.error e, true)
      | Except.ok items =>
        if items.length = 0 then
          (Except.ok ("No services found for service family: " ++ serviceFamily), true)
        else (Except.ok (servicesReport serviceFamily items), true)
  else (Except.error ("Unknown tool: " ++ name), false)

/-- A tool-call result on the wire: a single text payload plus the
`isError` flag (absent, i.e. false, on success). -/
structure ToolResult where
  text : String
  isError : Bool
deriving DecidableEq, Repr

/-- The registered tool names. -/
def toolNames : List String :=
  ["query_azure_prices", "compare_vm_prices", "get_service_families",
   "get_reservation_prices", "get_services_by_family"]

/-- The CallTool request handler installed in `main`: try/catch around
`handleToolCall`, converting any thrown error into an error-flagged text
result. -/
def callToolHandler (env : Env) (name : String) (args : Args) : ToolResult :=
  match (handleToolCall env name args).1 with
  | Except.ok text => ⟨text, false⟩
  | Except.error e => ⟨"Error: " ++ e, true⟩

/-! ### Helper lemmas -/

theorem paginate_prefix_pages {α : Type} (maxResults : Nat) :
    ∀ (rest : List (HttpResponse α)) (hasNext : Bool) (items : List α),
      paginate maxResults rest hasNext items <+: items ++ pagesJoin rest := by
  intro rest
  induction rest with
  | nil =>
    intro hasNext items
    cases hasNext <;> simp [paginate, pagesJoin]
  | cons r rs ih =>
    intro hasNext items
    cases hasNext with
    | false => simp only [paginate]; exact List.prefix_append items _
    | true =>
      simp only [paginate]
      by_cases hlen : items.length < maxResults
      · rw [if_pos hlen]
        by_cases hok : r.ok = true
        · rw [if_pos hok]
          have h := ih r.body.NextPageLink (items ++ r.body.Items)
          have hj : pagesJoin (r :: rs) = r.body.Items ++ pagesJoin rs := by
            simp [pagesJoin]
          rw [hj, ← List.append_assoc]
          exact h
        · rw [if_neg hok]; exact List.prefix_append items _
      · rw [if_neg hlen]; exact List.prefix_append items _

/-- The clause contributed by one optional field value. -/
def optClause (field : String) (v : Option String) : List String :=
  if truthyStr v then [field ++ " eq '" ++ v.getD "" ++ "'"] else []

theorem foldl_clause (p : Args) :
    ∀ (l : List (String × (Args → Option String))) (acc : List String),
      l.foldl (fun acc e =>
          if truthyStr (e.2 p) then
            acc ++ [e.1 ++ " eq '" ++ (e.2 p).getD "" ++ "'"]
          else acc) acc
        = acc ++ (l.map (fun e => optClause e.1 (e.2 p))).flatten := by
  intro l
  induction l with
  | nil => intro acc; simp
  | cons e t ih =>
    intro acc
    simp only [List.foldl_cons, List.map_cons, List.flatten_cons]
    by_cases h : truthyStr (e.2 p) = true
    · simp only [h, if_true, ih, optClause, List.append_assoc, List.singleton_append]
    · simp only [Bool.not_eq_true] at h
      simp [h, ih, optClause]

/-- The simple-field clauses the specification prescribes, in field
declaration order. -/
def specClauses (p : Args) : List String :=
  optClause "serviceName" p.serviceName ++
  optClause "serviceFamily" p.serviceFamily ++
  optClause "armRegionName" p.armRegionName ++
  optClause "armSkuName" p.armSkuName ++
  optClause "priceType" p.priceType ++
  optClause "productName" p.productName ++
  optClause "skuName" p.skuName ++
  optClause "meterName" p.meterName

/-- The verbatim custom-filter clause, when supplied non-empty. -/
def customClause (p : Args) : List String :=
  if truthyStr p.customFilter then [p.customFilter.getD ""] else []

theorem buildFilter_eq_clauses (p : Args) :
    buildFilter p = String.intercalate " and " (specClauses p ++ customClause p) := by
  unfold buildFilter
  rw [foldl_clause]
  by_cases h : truthyStr p.customFilter = true
  · simp only [h, if_true]
    simp [simpleFilters, specClauses, customClause, h, List.append_assoc]
  · simp only [Bool.not_eq_true] at h
    simp [simpleFilters, specClauses, customClause, h, List.append_assoc]

theorem groupFind_cons {α : Type} (k₀ : String) (v : List α)
    (gs : List (String × List α)) (q : String) :
    groupFind ((k₀, v) :: gs) q = if k₀ == q then v else groupFind gs q := by
  simp only [groupFind, List.find?]
  by_cases h : (k₀ == q) = true
  · simp [h]
  · simp only [Bool.not_eq_true] at h; simp [h]

theorem groupFind_groupInsert {α : Type} (k : String) (it : α) :
    ∀ (gs : List (String × List α)) (q : String),
      groupFind (groupInsert k it gs) q =
        if q = k then groupFind gs k ++ [it] else groupFind gs q := by
  intro gs
  induction gs with
  | nil =>
    intro q
    by_cases h : q = k
    · subst h; simp [groupInsert, groupFind_cons, groupFind]
    · have hb : (k == q) = false := beq_eq_false_iff_ne.mpr (Ne.symm h)
      simp [groupInsert, groupFind_cons, groupFind, hb, h]
  | cons g gs ih =>
    intro q
    obtain ⟨k₀, v⟩ := g
    by_cases hk : k₀ = k
    · by_cases hq : q = k₀
      · have hqk : q = k := hq.trans hk
        have hb : (k₀ == q) = true := beq_iff_eq.mpr hq.symm
        have hb2 : (k₀ == k) = true := beq_iff_eq.mpr hk
        simp [groupInsert, hk, groupFind_cons, hb, hb2, hqk]
      · have hqk : ¬ q = k := fun hh => hq (hh.trans hk.symm)
        have hkq : ¬ k = q := fun hh => hqk hh.symm
        have hb : (k₀ == q) = false := beq_eq_false_iff_ne.mpr (fun hh => hq hh.symm)
        simp [groupInsert, hk, groupFind_cons, hb, hqk, hkq]
    · by_cases hq : q = k₀
      · have hqk : ¬ q = k := fun hh => hk (hq.symm.trans hh)
        have hb : (k₀ == q) = true := beq_iff_eq.mpr hq.symm
        simp [groupInsert, hk, groupFind_cons, hb, hqk]
      · have hb : (k₀ == q) = false := beq_eq_false_iff_ne.mpr (fun hh => hq hh.symm)
        have hb2 : (k₀ == k) = false := beq_eq_false_iff_ne.mpr hk
        by_cases hqk : q = k
        · simp [groupInsert, hk, groupFind_cons, hb, hb2, hqk, ih]
        · simp [groupInsert, hk, groupFind_cons, hb, hqk, ih]

theorem groupFind_groupByKey {α : Type} (key : α → String) :
    ∀ (items : List α) (gs : List (String × List α)) (q : String),
      groupFind (items.foldl (fun m i => groupInsert (key i) i m) gs) q =
        groupFind gs q ++ items.filter (fun i => key i == q) := by
  intro items
  induction items with
  | nil => intro gs q; simp
  | cons i t ih =>
    intro gs q
    simp only [List.foldl_cons]
    rw [ih, groupFind_groupInsert]
    by_cases h : q = key i
    · subst h
      simp [List.filter_cons, List.append_assoc]
    · have h2 : (key i == q) = false := by
        simp only [beq_eq_false_iff_ne]; exact fun hh => h hh.symm
      simp [List.filter_cons, h, h2]

theorem map_fst_groupInsert {α : Type} (k : String) (it : α) :
    ∀ gs : List (String × List α),
      (groupInsert k it gs).map Prod.fst = setAdd (gs.map Prod.fst) k := by
  intro gs
  induction gs with
  | nil => simp [groupInsert, setAdd]
  | cons g gs ih =>
    obtain ⟨k₀, v⟩ := g
    by_cases hk : k₀ = k
    · subst hk; simp [groupInsert, setAdd, List.contains_cons]
    · have hbeq : (k == k₀) = false := beq_eq_false_iff_ne.mpr (fun hh => hk hh.symm)
      simp only [groupInsert, if_neg hk, List.map_cons, ih, setAdd, List.contains_cons, hbeq,
        Bool.false_or]
      by_cases hc : (gs.map Prod.fst).contains k = true
      · simp only [if_pos hc]
      · simp only [if_neg hc]; rw [List.cons_append]

theorem map_fst_foldl_group {α : Type} (key : α → String) :
    ∀ (items : List α) (gs : List (String × List α)),
      (items.foldl (fun m i => groupInsert (key i) i m) gs).map Prod.fst =
        (items.map key).foldl setAdd (gs.map Prod.fst) := by
  intro items
  induction items with
  | nil => intro gs; simp
  | cons i t ih =>
    intro gs
    simp only [List.foldl_cons, List.map_cons]
    rw [ih, map_fst_groupInsert]

theorem map_fst_groupByKey {α : Type} (key : α → String) (items : List α) :
    (groupByKey key items).map Prod.fst = firstSeen (items.map key) := by
  unfold groupByKey firstSeen
  rw [map_fst_foldl_group]
  rfl

theorem groupFind_svcInsert (svc prod : String) :
    ∀ (m : List (String × List String)) (q : String),
      groupFind (svcInsert svc prod m) q =
        if q = svc then setAdd (groupFind m svc) prod else groupFind m q := by
  intro m
  induction m with
  | nil =>
    intro q
    by_cases h : q = svc
    · subst h; simp [svcInsert, groupFind_cons, groupFind, setAdd]
    · have hb : (svc == q) = false := beq_eq_false_iff_ne.mpr (Ne.symm h)
      simp [svcInsert, groupFind_cons, groupFind, hb, h]
  | cons g m ih =>
    intro q
    obtain ⟨k₀, v⟩ := g
    by_cases hk : k₀ = svc
    · by_cases hq : q = k₀
      · have hqs : q = svc := hq.trans hk
        have hb : (k₀ == q) = true := beq_iff_eq.mpr hq.symm
        have hb2 : (k₀ == svc) = true := beq_iff_eq.mpr hk
        simp [svcInsert, hk, groupFind_cons, hb, hb2, hqs]
      · have hqs : ¬ q = svc := fun hh => hq (hh.trans hk.symm)
        have hsq : ¬ svc = q := fun hh => hqs hh.symm
        have hb : (k₀ == q) = false := beq_eq_false_iff_ne.mpr (fun hh => hq hh.symm)
        simp [svcInsert, hk, groupFind_cons, hb, hqs, hsq]
    · by_cases hq : q = k₀
      · have hqs : ¬ q = svc := fun hh => hk (hq.symm.trans hh)
        have hb : (k₀ == q) = true := beq_iff_eq.mpr hq.symm
        simp [svcInsert, hk, groupFind_cons, hb, hqs]
      · have hb : (k₀ == q) = false := beq_eq_false_iff_ne.mpr (fun hh => hq hh.symm)
        have hb2 : (k₀ == svc) = false := beq_eq_false_iff_ne.mpr hk
        by_cases hqs : q = svc
        · simp [svcInsert, hk, groupFind_cons, hb, hb2, hqs, ih]
        · simp [svcInsert, hk, groupFind_cons, hb, hqs, ih]

theorem groupFind_foldl_svc :
    ∀ (items : List PriceItem) (m : List (String × List String)) (q : String),
      groupFind (items.foldl (fun m i => svcInsert i.serviceName i.productName m) m) q =
        ((items.filter (fun i => i.serviceName == q)).map (fun i => i.productName)).foldl
          setAdd (groupFind m q) := by
  intro items
  induction items with
  | nil => intro m q; simp
  | cons i t ih =>
    intro m q
    simp only [List.foldl_cons]
    rw [ih, groupFind_svcInsert]
    by_cases h : q = i.serviceName
    · subst h
      simp [List.filter_cons]
    · have h2 : (i.serviceName == q) = false := by
        simp only [beq_eq_false_iff_ne]; exact fun hh => h hh.symm
      simp [List.filter_cons, h, h2]

theorem groupFind_servicesMap (items : List PriceItem) (q : String) :
    groupFind (servicesMap items) q =
      firstSeen ((items.filter (fun i => i.serviceName == q)).map (fun i => i.productName)) := by
  unfold servicesMap firstSeen
  rw [groupFind_foldl_svc]
  rfl

theorem map_fst_svcInsert (svc prod : String) :
    ∀ m : List (String × List String),
      (svcInsert svc prod m).map Prod.fst = setAdd (m.map Prod.fst) svc := by
  intro m
  induction m with
  | nil => simp [svcInsert, setAdd]
  | cons g m ih =>
    obtain ⟨k₀, v⟩ := g
    by_cases hk : k₀ = svc
    · subst hk; simp [svcInsert, setAdd, List.contains_cons]
    · have hbeq : (svc == k₀) = false := beq_eq_false_iff_ne.mpr (fun hh => hk hh.symm)
      simp only [svcInsert, if_neg hk, List.map_cons, ih, setAdd, List.contains_cons, hbeq,
        Bool.false_or]
      by_cases hc : (m.map Prod.fst).contains svc = true
      · simp only [if_pos hc]
      · simp only [if_neg hc]; rw [List.cons_append]

theorem map_fst_servicesMap (items : List PriceItem) :
    (servicesMap items).map Prod.fst = firstSeen (items.map (fun i => i.serviceName)) := by
  unfold servicesMap firstSeen
  have h : ∀ (l : List PriceItem) (m : List (String × List String)),
      (l.foldl (fun m i => svcInsert i.serviceName i.productName m) m).map Prod.fst =
        (l.map (fun i => i.serviceName)).foldl setAdd (m.map Prod.fst) := by
    intro l
    induction l with
    | nil => intro m; simp
    | cons i t ih =>
      intro m
      simp only [List.foldl_cons, List.map_cons]
      rw [ih, map_fst_svcInsert]
  rw [h]
  rfl

theorem setAdd_nodup {s : List String} {x : String} (h : s.Nodup) : (setAdd s x).Nodup := by
  unfold setAdd
  by_cases hc : s.contains x = true
  · rw [if_pos hc]; exact h
  · rw [if_neg hc]
    have hx : x ∉ s := fun hm => hc (List.elem_iff.mpr hm)
    rw [List.nodup_append]
    refine ⟨h, List.nodup_singleton x, ?_⟩
    intro a ha hb
    simp only [List.mem_singleton] at hb
    subst hb
    exact hx ha

theorem firstSeen_nodup (l : List String) : (firstSeen l).Nodup := by
  unfold firstSeen
  have h : ∀ (l : List String) (acc : List String), acc.Nodup → (l.foldl setAdd acc).Nodup := by
    intro l
    induction l with
    | nil => intro acc h; simpa using h
    | cons x t ih =>
      intro acc h
      simp only [List.foldl_cons]
      exact ih _ (setAdd_nodup h)
  exact h l [] List.nodup_nil

theorem charListLe_trans :
    ∀ a b c : List Char, charListLe a b = true → charListLe b c = true →
      charListLe a c = true := by
  intro a
  induction a with
  | nil => intro b c _ _; rfl
  | cons x xs ih =>
    intro b c h1 h2
    cases b with
    | nil => simp [charListLe] at h1
    | cons y ys =>
      cases c with
      | nil => simp [charListLe] at h2
      | cons z zs =>
        simp only [charListLe] at h1 h2 ⊢
        by_cases hxy : x < y
        · by_cases hyz : y < z
          · simp [lt_trans hxy hyz]
          · by_cases hzy : z < y
            · simp [hyz, hzy] at h2
            · have hyeq : y = z := le_antisymm (not_lt.mp hzy) (not_lt.mp hyz)
              simp [hyeq ▸ hxy]
        · by_cases hyx : y < x
          · simp [hxy, hyx] at h1
          · have hxeq : x = y := le_antisymm (not_lt.mp hyx) (not_lt.mp hxy)
            rw [if_neg hxy, if_neg hyx] at h1
            by_cases hyz : y < z
            · have : x < z := hxeq ▸ hyz
              simp [this]
            · by_cases hzy : z < y
              · simp [hyz, hzy] at h2
              · have hyeq : y = z := le_antisymm (not_lt.mp hzy) (not_lt.mp hyz)
                rw [if_neg hyz, if_neg hzy] at h2
                have hxz : ¬ x < z := (hxeq.trans hyeq) ▸ lt_irrefl x
                have hzx : ¬ z < x := (hxeq.trans hyeq) ▸ lt_irrefl x
                rw [if_neg hxz, if_neg hzx]
                exact ih ys zs h1 h2

theorem charListLe_total :
    ∀ a b : List Char, charListLe a b = true ∨ charListLe b a = true := by
  intro a
  induction a with
  | nil => intro b; left; rfl
  | cons x xs ih =>
    intro b
    cases b with
    | nil => right; rfl
    | cons y ys =>
      simp only [charListLe]
      rcases lt_trichotomy x y with h | h | h
      · left; simp [h]
      · subst h
        simp only [lt_irrefl, if_false]
        exact ih ys
      · right; simp [h]

instance : IsTrans String strLE :=
  ⟨fun a b c h1 h2 => charListLe_trans a.data b.data c.data h1 h2⟩

instance : IsTotal String strLE :=
  ⟨fun a b => charListLe_total a.data b.data⟩

instance : IsTrans (String × List String) entryLE :=
  ⟨fun a b c h1 h2 => charListLe_trans a.1.data b.1.data c.1.data h1 h2⟩

instance : IsTotal (String × List String) entryLE :=
  ⟨fun a b => charListLe_total a.1.data b.1.data⟩

instance : IsTrans PriceItem priceLE :=
  ⟨fun _ _ _ h1 h2 => le_trans h1 h2⟩

instance : IsTotal PriceItem priceLE :=
  ⟨fun a b => le_total a.retailPrice b.retailPrice⟩

theorem foldl_append_exists {β : Type} (f : β → String) :
    ∀ (l : List β) (acc : String), ∃ b, l.foldl (fun a x => a ++ f x) acc = acc ++ b := by
  intro l
  induction l with
  | nil => intro acc; exact ⟨"", (String.append_empty acc).symm⟩
  | cons x t ih =>
    intro acc
    obtain ⟨b, hb⟩ := ih (acc ++ f x)
    exact ⟨f x ++ b, by rw [List.foldl_cons, hb, String.append_assoc]⟩

theorem append_ne_empty (a b : String) (h : ¬ a.data = []) : ¬ (a ++ b = "") := by
  intro hc
  have hd : a.data ++ b.data = [] := congrArg String.data hc
  exact h (List.append_eq_nil.mp hd).1

/-! ### Concrete fixtures -/

/-- A successful (status 200) upstream page of price items. -/
def okPage (items : List PriceItem) (hasNext : Bool) : HttpResponse PriceItem :=
  { status := 200, statusText := "OK", body := { Items := items, NextPageLink := hasNext } }

/-- An upstream whose initial query succeeds with an empty item list. -/
def envEmpty : Env := { first := okPage [] false, rest := [] }

/-- A successful upstream page of 50 consecutive naturals starting at
`start`. -/
def natPage (start : Nat) (hasNext : Bool) : HttpResponse Nat :=
  { status := 200, statusText := "OK",
    body := { Items := (List.range 50).map (fun n => start + n), NextPageLink := hasNext } }

/-- A failed (status 500) upstream response. -/
def bad500 : HttpResponse Nat :=
  { status := 500, statusText := "Internal Server Error",
    body := { Items := [], NextPageLink := false } }

/-- A price item with neutral fields, for building concrete examples. -/
def baseItem : PriceItem :=
  { currencyCode := "USD", tierMinimumUnits := 0, retailPrice := 0, unitPrice := 0,
    armRegionName := "", location := "", effectiveStartDate := "", meterId := "",
    meterName := "", productId := "", skuId := "", productName := "P", skuName := "",
    serviceName := "", serviceId := "", serviceFamily := "", unitOfMeasure := "1 Hour",
    type := "", isPrimaryMeterRegion := true, armSkuName := "", reservationTerm := none,
    savingsPlan := none }

/-- A VM price item for the comparison example. -/
def vmItem (sku region : String) (price : ℚ) : PriceItem :=
  { baseItem with armSkuName := sku, armRegionName := region, retailPrice := price }

/-- Items for SKU "A" priced [3, 1, 2] and SKU "B" priced [5]. -/
def exampleVMItems : List PriceItem :=
  [vmItem "A" "r3" 3, vmItem "A" "r1" 1, vmItem "A" "r2" 2, vmItem "B" "r4" 5]

/-! ### Claim theorems -/

/-- C1: the spec requires `compare_vm_prices` to return the fixed
"No VM prices found for the specified criteria." message when the filtered
item set is empty, but the code initializes `result` with the non-empty
comparison header before appending the groups and only then evaluates
`result || fallback`, so the fallback can never fire: on an empty filtered
set the call returns exactly the bare header "## VM Price Comparison\n\n",
and every comparison report extends that header. -/
theorem compare_empty_header_bug :
    compareReport [] = "## VM Price Comparison\n\n" ∧
    (∀ filtered : List PriceItem, ∃ b,
      compareReport filtered = "## VM Price Comparison\n\n" ++ b) ∧
    handleToolCall envEmpty "compare_vm_prices" emptyArgs =
      (Except.ok "## VM Price Comparison\n\n", true) ∧
    ¬ ("## VM Price Comparison\n\n" = "No VM prices found for the specified criteria.") := by
  refine ⟨rfl, ?_, rfl, by decide⟩
  intro filtered
  have h := foldl_append_exists (fun g : String × List PriceItem => compareSection g.1 g.2)
    (groupByKey (fun i => i.armSkuName) filtered) "## VM Price Comparison\n\n"
  obtain ⟨b, hb⟩ := h
  refine ⟨b, ?_⟩
  unfold compareReport jsOrString
  rw [hb, if_neg]
  exact append_ne_empty _ _ (by decide)

/-- C2: a successful `fetchWithPagination` returns at most `maxResults`
items forming a prefix of the upstream items concatenated in page-arrival
order; concretely, for an upstream of 3 pages of 50 items each and a cap
of 120 it returns exactly the first 120 items, discarding the rest of the
third page. -/
theorem fetchWithPagination_cap_prefix :
    (∀ {α : Type} (first : HttpResponse α) (rest : List (HttpResponse α))
        (maxResults : Nat) (items : List α),
        fetchWithPagination first rest maxResults = Except.ok items →
        items.length ≤ maxResults ∧ items <+: first.body.Items ++ pagesJoin rest) ∧
    fetchWithPagination (natPage 0 true) [natPage 50 true, natPage 100 false] 120 =
      Except.ok (List.range 120) := by
  constructor
  · intro α first rest maxResults items h
    unfold fetchWithPagination queryAzurePrices at h
    by_cases hok : first.ok = true
    · rw [if_pos hok] at h
      simp only [Except.ok.injEq] at h
      subst h
      constructor
      · rw [List.length_take]; exact min_le_left _ _
      · exact List.IsPrefix.trans
          ⟨_, List.take_append_drop maxResults _⟩
          (paginate_prefix_pages maxResults rest first.body.NextPageLink first.body.Items)
    · rw [if_neg hok] at h
      simp at h
  · rfl

/-- Witness for C2 at the concrete 3-page upstream. -/
theorem fetchWithPagination_cap_prefix_witness :
    (List.range 120).length ≤ 120 ∧
      List.range 120 <+:
        (natPage 0 true).body.Items ++ pagesJoin [natPage 50 true, natPage 100 false] :=
  fetchWithPagination_cap_prefix.1 (natPage 0 true) [natPage 50 true, natPage 100 false]
    120 (List.range 120) fetchWithPagination_cap_prefix.2

/-- C3: `fetchWithPagination` raises an error exactly when the initial
request has a non-2xx status, with the status code and reason phrase in
the message; a non-2xx status on a subsequent page raises nothing, the
loop stops and the items accumulated so far are returned (only the first
page when the second page fetch fails). -/
theorem fetch_error_iff_initial_failure :
    (∀ {α : Type} (first : HttpResponse α) (rest : List (HttpResponse α)) (maxResults : Nat),
        first.ok = false →
        fetchWithPagination first rest maxResults =
          Except.error ("API request failed: " ++ toString first.status ++ " " ++
            first.statusText)) ∧
    (∀ {α : Type} (first : HttpResponse α) (rest : List (HttpResponse α)) (maxResults : Nat),
        first.ok = true →
        ∃ items, fetchWithPagination first rest maxResults = Except.ok items) ∧
    (∀ {α : Type} (first r : HttpResponse α) (rs : List (HttpResponse α)) (maxResults : Nat),
        first.ok = true → r.ok = false → first.body.NextPageLink = true →
        first.body.Items.length < maxResults →
        fetchWithPagination first (r :: rs) maxResults = Except.ok first.body.Items) := by
  refine ⟨?_, ?_, ?_⟩
  · intro α first rest maxResults h
    unfold fetchWithPagination queryAzurePrices
    rw [if_neg (by simp [h])]
  · intro α first rest maxResults h
    refine ⟨(paginate maxResults rest first.body.NextPageLink first.body.Items).take maxResults, ?_⟩
    have hq : queryAzurePrices first = Except.ok first.body := by
      unfold queryAzurePrices; rw [if_pos h]
    unfold fetchWithPagination
    rw [hq]
  · intro α first r rs maxResults h hr hnext hlen
    have hq : queryAzurePrices first = Except.ok first.body := by
      unfold queryAzurePrices; rw [if_pos h]
    unfold fetchWithPagination
    rw [hq]
    have hp : paginate maxResults (r :: rs) first.body.NextPageLink first.body.Items =
        first.body.Items := by
      rw [hnext]
      show (if first.body.Items.length < maxResults then
          if r.ok then paginate maxResults rs r.body.NextPageLink
            (first.body.Items ++ r.body.Items)
          else first.body.Items
        else first.body.Items) = first.body.Items
      rw [if_pos hlen, if_neg (by simp [hr])]
    show Except.ok ((paginate maxResults (r :: rs) first.body.NextPageLink
        first.body.Items).take maxResults) = Except.ok first.body.Items
    rw [hp, List.take_of_length_le (le_of_lt hlen)]

/-- Witness for C3: a 500 on the initial fetch is fatal with the status in
the message; a 200 initial fetch never errors; a 500 on the second page
returns exactly the first page's items. -/
theorem fetch_error_iff_initial_failure_witness :
    fetchWithPagination bad500 [] 5 =
        Except.error "API request failed: 500 Internal Server Error" ∧
      (∃ items, fetchWithPagination (natPage 0 false) [] 5 = Except.ok items) ∧
      fetchWithPagination (natPage 0 true) [bad500, natPage 50 false] 120 =
        Except.ok ((natPage 0 true).body.Items) :=
  ⟨fetch_error_iff_initial_failure.1 bad500 [] 5 rfl,
   fetch_error_iff_initial_failure.2.1 (natPage 0 false) [] 5 rfl,
   fetch_error_iff_initial_failure.2.2 (natPage 0 true) bad500 [natPage 50 false] 120
     rfl rfl rfl (by decide)⟩

/-- C4: `buildFilter` yields the simple-field clauses in declaration
order followed by the verbatim custom filter, joined with " and "; with no
field and no custom filter it yields the empty string, and with only a
custom filter it yields exactly that string. -/
theorem buildFilter_spec :
    (∀ p : Args, buildFilter p = String.intercalate " and " (specClauses p ++ customClause p)) ∧
    buildFilter emptyArgs = "" ∧
    (∀ c : String, ¬ c = "" →
      buildFilter { emptyArgs with customFilter := some c } = c) := by
  refine ⟨buildFilter_eq_clauses, rfl, ?_⟩
  intro c hc
  rw [buildFilter_eq_clauses]
  have h1 : specClauses { emptyArgs with customFilter := some c } = [] := rfl
  have h2 : customClause { emptyArgs with customFilter := some c } = [c] := by
    have ht : truthyStr ({ emptyArgs with customFilter := some c } : Args).customFilter = true := by
      show truthyStr (some c) = true
      simp [truthyStr, hc]
    unfold customClause
    rw [if_pos ht]
    exact rfl
  rw [h1, h2]
  rfl

/-- Witness for C4 with a concrete custom filter expression. -/
theorem buildFilter_spec_witness :
    ¬ "contains(meterName, 'Spot')" = "" ∧
      buildFilter { emptyArgs with customFilter := some "contains(meterName, 'Spot')" } =
        "contains(meterName, 'Spot')" :=
  ⟨by decide, buildFilter_spec.2.2 "contains(meterName, 'Spot')" (by decide)⟩

/-- C5: the dispatcher is a total function into text results: an
unregistered tool name yields an error-flagged result whose message names
that tool, every thrown error is converted into an error-flagged text
result carrying its message, and every successful call yields its text
unflagged — never a protocol-level fault. -/
theorem dispatcher_total_spec :
    (∀ (env : Env) (name : String) (args : Args), name ∉ toolNames →
      callToolHandler env name args =
        ⟨"Error: " ++ ("Unknown tool: " ++ name), true⟩) ∧
    (∀ (env : Env) (name : String) (args : Args) (e : String),
      (handleToolCall env name args).1 = Except.error e →
      callToolHandler env name args = ⟨"Error: " ++ e, true⟩) ∧
    (∀ (env : Env) (name : String) (args : Args) (t : String),
      (handleToolCall env name args).1 = Except.ok t →
      callToolHandler env name args = ⟨t, false⟩) := by
  refine ⟨?_, ?_, ?_⟩
  · intro env name args h
    simp only [toolNames, List.mem_cons, List.not_mem_nil, or_false] at h
    push_neg at h
    obtain ⟨h1, h2, h3, h4, h5⟩ := h
    unfold callToolHandler handleToolCall
    rw [if_neg h1, if_neg h2, if_neg h3, if_neg h4, if_neg h5]
  · intro env name args e h
    unfold callToolHandler
    rw [h]
  · intro env name args t h
    unfold callToolHandler
    rw [h]

/-- Witness for C5 at a concrete unregistered tool name. -/
theorem dispatcher_total_spec_witness :
    "frobnicate" ∉ toolNames ∧
      callToolHandler envEmpty "frobnicate" emptyArgs =
        ⟨"Error: " ++ ("Unknown tool: " ++ "frobnicate"), true⟩ :=
  ⟨by decide, dispatcher_total_spec.1 envEmpty "frobnicate" emptyArgs (by decide)⟩

/-- C6: `get_services_by_family` with a service family outside the fixed
enumeration returns a normal text message naming the invalid value and
pointing at `get_service_families`, and performs no upstream fetch (the
Boolean component is false). -/
theorem services_by_family_unknown :
    ∀ (env : Env) (args : Args) (f : String),
      args.serviceFamily = some f → f ∉ SERVICE_FAMILIES →
      handleToolCall env "get_services_by_family" args =
        (Except.ok ("Unknown service family: \"" ++ f ++
          "\". Use get_service_families to see valid options."), false) := by
  intro env args f hf hmem
  have hv : SERVICE_FAMILIES.contains f = false := by
    cases hcon : SERVICE_FAMILIES.contains f
    · rfl
    · exact absurd (List.elem_iff.mp hcon) hmem
  unfold handleToolCall
  rw [if_neg (by decide), if_neg (by decide), if_neg (by decide), if_neg (by decide),
    if_pos rfl]
  simp [hf, jsString, familyIsValid, hv]
  intro hcon
  exact absurd hcon hmem

/-- Witness for C6 at the invalid family "Foo". -/
theorem services_by_family_unknown_witness :
    ({ emptyArgs with serviceFamily := some "Foo" } : Args).serviceFamily = some "Foo" ∧
      "Foo" ∉ SERVICE_FAMILIES ∧
      handleToolCall envEmpty "get_services_by_family"
          { emptyArgs with serviceFamily := some "Foo" } =
        (Except.ok
          "Unknown service family: \"Foo\". Use get_service_families to see valid options.",
          false) :=
  ⟨rfl, by decide,
   services_by_family_unknown envEmpty { emptyArgs with serviceFamily := some "Foo" } "Foo"
     rfl (by decide)⟩

set_option maxRecDepth 8192 in
/-- C9: `get_service_families` always returns the fixed report listing
exactly the 26 service families, one line per family, built from the same
`SERVICE_FAMILIES` enumeration that `get_services_by_family` validates
against via `familyIsValid`. -/
theorem service_families_fixed_list :
    (∀ (env : Env) (args : Args),
      handleToolCall env "get_service_families" args = (Except.ok familiesReport, false)) ∧
    familiesReport =
      "## Azure Service Families\n\nThe following service families can be used to filter Azure prices:\n\n- Analytics\n- Azure Arc\n- Azure Communication Services\n- Azure Security\n- Azure Stack\n- Compute\n- Containers\n- Data\n- Databases\n- Developer Tools\n- Dynamics\n- Gaming\n- Integration\n- Internet of Things\n- Management and Governance\n- Microsoft Syntex\n- Mixed Reality\n- Networking\n- Other\n- Power Platform\n- Quantum Computing\n- Security\n- Storage\n- Telecommunications\n- Web\n- Windows Virtual Desktop" ∧
    SERVICE_FAMILIES.length = 26 ∧
    (∀ f : String, familyIsValid f = SERVICE_FAMILIES.contains f) := by
  refine ⟨?_, rfl, rfl, fun f => rfl⟩
  intro env args
  unfold handleToolCall
  rw [if_neg (by decide), if_neg (by decide), if_pos rfl]

/-- C10: a supplied `maxResults` of 0 is falsy in JS, so
`query_azure_prices` falls back to the default 100 and
`get_services_by_family` to the default 500 (before the hard caps of 1000
and 2000), and each call behaves exactly as if `maxResults` were absent. -/
theorem maxResults_zero_uses_default :
    (∀ args : Args, args.maxResults = some 0 →
      queryMaxResults args = 100 ∧ servicesMaxResults args = 500) ∧
    (∀ (env : Env) (args : Args),
      handleToolCall env "query_azure_prices" { args with maxResults := some 0 } =
        handleToolCall env "query_azure_prices" { args with maxResults := none }) ∧
    (∀ (env : Env) (args : Args),
      handleToolCall env "get_services_by_family" { args with maxResults := some 0 } =
        handleToolCall env "get_services_by_family" { args with maxResults := none }) := by
  refine ⟨?_, fun env args => rfl, fun env args => rfl⟩
  intro args h
  constructor
  · simp [queryMaxResults, jsOrNat, h]
  · simp [servicesMaxResults, jsOrNat, h]

/-- Witness for C10 at a concrete argument bag carrying `maxResults = 0`. -/
theorem maxResults_zero_uses_default_witness :
    ({ emptyArgs with maxResults := some 0 } : Args).maxResults = some 0 ∧
      queryMaxResults { emptyArgs with maxResults := some 0 } = 100 ∧
      servicesMaxResults { emptyArgs with maxResults := some 0 } = 500 :=
  ⟨rfl, maxResults_zero_uses_default.1 { emptyArgs with maxResults := some 0 } rfl⟩

/-- C7: the comparison report groups by ARM SKU name with headings in
first-seen order (`firstSeen` of the SKU sequence), each group holding
exactly the items with that SKU in fetch order; within a group the lines
come from the ascending stable sort by retail price, at most 10 of them;
on the example with SKU "A" priced [3, 1, 2] and SKU "B" priced [5] the
two headings appear with prices listed as [1, 2, 3] under "A". -/
theorem compare_grouping_spec :
    (∀ items : List PriceItem,
      (groupByKey (fun i => i.armSkuName) items).map Prod.fst =
        firstSeen (items.map (fun i => i.armSkuName))) ∧
    (∀ (items : List PriceItem) (sku : String),
      groupFind (groupByKey (fun i => i.armSkuName) items) sku =
        items.filter (fun i => i.armSkuName == sku)) ∧
    (∀ ps : List PriceItem,
      (sortByPrice ps).Pairwise (fun a b => a.retailPrice ≤ b.retailPrice) ∧
      (sortByPrice ps).Perm ps ∧ ((sortByPrice ps).take 10).length ≤ 10) ∧
    ((groupByKey (fun i => i.armSkuName) exampleVMItems).map
        (fun g => (g.1, ((sortByPrice g.2).take 10).map (fun p => p.retailPrice))) =
      [("A", [1, 2, 3]), ("B", [5])]) ∧
    compareReport exampleVMItems =
      "## VM Price Comparison\n\n### A\n- r1: 1 USD/1 Hour (P)\n- r2: 2 USD/1 Hour (P)\n- r3: 3 USD/1 Hour (P)\n\n### B\n- r4: 5 USD/1 Hour (P)\n\n" := by
  refine ⟨?_, ?_, ?_, by decide, rfl⟩
  · intro items
    exact map_fst_groupByKey _ items
  · intro items sku
    have h := groupFind_groupByKey (fun i => i.armSkuName) items [] sku
    simpa [groupFind] using h
  · intro ps
    refine ⟨List.sorted_insertionSort priceLE ps, List.perm_insertionSort priceLE ps, ?_⟩
    rw [List.length_take]
    exact min_le_left _ _

/-- The product name "P01" .. "P25" used in the discovery example. -/
def pname (n : Nat) : String := "P" ++ (if n < 9 then "0" else "") ++ toString (n + 1)

/-- One scanned record of service "S" with product `pname n`. -/
def svcItem (n : Nat) : PriceItem :=
  { baseItem with serviceName := "S", productName := pname n }

/-- 25 records of one service with 25 distinct product names. -/
def discoveryItems : List PriceItem := (List.range 25).map svcItem

set_option maxRecDepth 16384 in
/-- C8: the discovery report maps each service to its distinct product
names (first-seen sets), lists services sorted lexicographically and each
service's products sorted lexicographically; on 25 distinct products the
report lists the first 20 followed by the line "- ... and 5 more", under a
summary line counting 1 distinct service and 25 scanned records. -/
theorem services_report_spec :
    (∀ items : List PriceItem,
      (servicesMap items).map Prod.fst = firstSeen (items.map (fun i => i.serviceName))) ∧
    (∀ (items : List PriceItem) (svc : String),
      groupFind (servicesMap items) svc =
        firstSeen ((items.filter (fun i => i.serviceName == svc)).map
          (fun i => i.productName))) ∧
    (∀ l : List String, (firstSeen l).Nodup) ∧
    (∀ items : List PriceItem,
      ((List.insertionSort entryLE (servicesMap items)).map Prod.fst).Pairwise strLE ∧
      (List.insertionSort entryLE (servicesMap items)).Perm (servicesMap items)) ∧
    (∀ l : List String, (sortStrings l).Pairwise strLE ∧ (sortStrings l).Perm l) ∧
    servicesReport "Compute" discoveryItems =
      "## Services in \"Compute\" Family\n\nFound 1 service(s) from 25 price records:\n\n### S\nProducts (25):\n- P01\n- P02\n- P03\n- P04\n- P05\n- P06\n- P07\n- P08\n- P09\n- P10\n- P11\n- P12\n- P13\n- P14\n- P15\n- P16\n- P17\n- P18\n- P19\n- P20\n- ... and 5 more\n\n" := by
  refine ⟨map_fst_servicesMap, groupFind_servicesMap, firstSeen_nodup, ?_, ?_, rfl⟩
  · intro items
    refine ⟨?_, List.perm_insertionSort entryLE (servicesMap items)⟩
    exact (List.pairwise_map).mpr (List.sorted_insertionSort entryLE (servicesMap items))
  · intro l
    exact ⟨List.sorted_insertionSort strLE l, List.perm_insertionSort strLE l⟩
